import Mathlib

/-!
Verification of the comfyui-mcp job orchestration layer.

The definitions below are a shallow embedding of the TypeScript sources:

* `src/src/comfyui/index.ts`   — end-node lookup, image post-processing, the
  asynchronous job executor and parameter validation;
* `src/src/comfyui/ws.ts`      — the WebSocket event-stream client;
* `src/src/comfyui/ws-enhanced.ts` — the job-tracking wrapper;
* `src/packages/server/src/job/storage.ts` — the in-memory job store;
* `src/unnamed/part_011`       — the JobManager;
* `src/src/api/routes.ts`      — the REST submit and cancel handlers.

JavaScript machine integers and `Date` values are modelled as `Nat`
(milliseconds since the epoch); JSON values as the inductive `JSValue`;
`Map` iteration order as list order (JS `Map` iterates in insertion order).
Promises are modelled by an explicit one-shot `settled` field: the first
resolution or rejection wins, later ones are ignored, which is exactly the
semantics of calling `resolve`/`reject` on an already-settled JS promise.
-/

/-- Model of a JSON/JavaScript runtime value, as far as the validation code
inspects it.  `nan` is a separate constructor because `typeof NaN` is
`number` while `isNaN NaN` is true, and the validator distinguishes the
two cases. -/
inductive JSValue where
  | undef
  | jsNull
  | str (s : String)
  | num (n : Int)
  | nan
  | bool (b : Bool)
  | arr (elems : List JSValue)
  | obj (fields : List (String × JSValue))
deriving Repr

/-- Result of the JavaScript `typeof` operator on a `JSValue`. -/
def JSValue.typeofStr : JSValue → String
  | .undef => "undefined"
  | .jsNull => "object"
  | .str _ => "string"
  | .num _ => "number"
  | .nan => "number"
  | .bool _ => "boolean"
  | .arr _ => "object"
  | .obj _ => "object"

/-- `Array.isArray`. -/
def JSValue.isArray : JSValue → Bool
  | .arr _ => true
  | _ => false

/-- Job lifecycle states, from `JobStatus` in the job types module
(lowercase string enum in the source). -/
inductive JobStatus where
  | pending
  | running
  | completed
  | failed
  | timeout
  | cancelled
deriving Repr, DecidableEq

/-- One node of a workflow graph: `{ inputs, class_type }`. -/
structure WorkflowNode where
  inputs : List (String × JSValue)
  class_type : String
deriving Repr

/-- A workflow graph: node-id keyed map, modelled as an association list in
the enumeration order of `Object.entries` on the parsed JSON object. -/
abbrev Workflow := List (String × WorkflowNode)

/-- An image reference from the raw `executed` payload
(`{filename, subfolder, type}`). -/
structure ImageInfo where
  filename : String
  subfolder : String
  type : String
deriving Repr, DecidableEq

/-- A processed image entry of a job result, from `processOutputImages`. -/
structure ResultImage where
  filename : String
  subfolder : String
  type : String
  url : Option String
  s3Url : Option String
deriving Repr, DecidableEq

/-- One node-history entry recorded by the enhanced client. -/
structure NodeExecutionHistoryEntry where
  nodeId : String
  executedAt : Nat
  cached : Bool
deriving Repr, DecidableEq

/-- A job result, from `JobResult` in the job types module. -/
structure JobResult where
  images : List ResultImage
  node : String
  displayNode : String
  promptId : String
  executionTime : Int
  nodeHistory : List NodeExecutionHistoryEntry
deriving Repr, DecidableEq

/-- A recorded job error: message plus optional machine-readable code. -/
structure JobError where
  message : String
  code : Option String
deriving Repr, DecidableEq

/-- Latest progress snapshot of a job. -/
structure JobProgress where
  current : Int
  maximum : Int
  node : String
  cachedNodes : List String
  timestamp : Nat
deriving Repr, DecidableEq

/-- Job metadata record, from `JobMetadata` in the job types module.
`parameters` and `workflow` are carried as uninterpreted data. -/
structure JobMetadata where
  jobId : String
  service : String
  status : JobStatus
  createdAt : Nat
  startedAt : Option Nat
  completedAt : Option Nat
  clientId : String
  parameters : List (String × JSValue)
  workflow : Workflow
  progress : Option JobProgress
  result : Option JobResult
  error : Option JobError
  promptId : Option String
deriving Repr

/-- Filters accepted by `JobStorage.list`.  `limit` and `offset` are
JavaScript numbers; the claims only exercise non-negative values, so they
are modelled as `Nat` (a negative argument to `Array.slice` counts from the
end of the array and is outside the modelled range). -/
structure JobFilters where
  service : Option String
  status : Option JobStatus
  limit : Option Nat
  offset : Option Nat
deriving Repr

/-- Filters with every field absent. -/
def JobFilters.none : JobFilters := ⟨Option.none, Option.none, Option.none, Option.none⟩

namespace JobStorage

/-- The descending-`createdAt` comparison used by `list`
(`(a, b) => b.createdAt.getTime() - a.createdAt.getTime()`): `a` may stay
before `b` iff the key of `b` is at most the key of `a`.  JS `sort` is a
stable comparison sort; a stable sort is uniquely determined by its
comparator, so the stable `List.insertionSort` models it exactly. -/
def createdDesc (a b : JobMetadata) : Prop := b.createdAt ≤ a.createdAt

instance : DecidableRel createdDesc := fun _ _ => Nat.decLe _ _

instance : IsTotal JobMetadata createdDesc :=
  ⟨fun a b => Nat.le_total b.createdAt a.createdAt⟩

instance : IsTrans JobMetadata createdDesc :=
  ⟨fun _ _ _ h1 h2 => Nat.le_trans h2 h1⟩

/-- `JobStorage.list` from `src/packages/server/src/job/storage.ts`:
filter by service and status (each guarded by JS truthiness, so an
empty-string service filter is skipped), sort by `createdAt` descending,
then `slice(offset)` and `slice(0, limit)` — both guarded by truthiness,
so a zero offset or limit is skipped. -/
def list (jobs : List JobMetadata) (filters : JobFilters) : List JobMetadata :=
  let j1 : List JobMetadata := match filters.service with
    | Option.some s => if s == "" then jobs else jobs.filter (fun j => j.service == s)
    | Option.none => jobs
  let j2 : List JobMetadata := match filters.status with
    | Option.some st => j1.filter (fun j => j.status == st)
    | Option.none => j1
  let sorted : List JobMetadata := j2.insertionSort createdDesc
  let j3 : List JobMetadata := match filters.offset with
    | Option.some o => if o == 0 then sorted else sorted.drop o
    | Option.none => sorted
  match filters.limit with
  | Option.some l => if l == 0 then j3 else j3.take l
  | Option.none => j3

/-- `JobStorage.cleanupOldJobs`: one pass over the map entries, deleting
every job with `createdAt < cutoff` and counting the deletions.  Returns
the surviving store together with the count. -/
def cleanupOldJobs : List JobMetadata → Nat → List JobMetadata × Nat
  | [], _ => ([], 0)
  | j :: rest, cutoff =>
    let (keep, n) := cleanupOldJobs rest cutoff
    if j.createdAt < cutoff then (keep, n + 1) else (j :: keep, n)

/-- `JobStorage.getCountByStatus`. -/
def getCountByStatus (jobs : List JobMetadata) (st : JobStatus) : Nat :=
  (jobs.filter (fun j => j.status == st)).length

end JobStorage

namespace JobManager

/-- Optional field merge passed to `updateJobStatus`
(`Object.assign(job, updates)` with only timestamp fields ever supplied). -/
structure JobUpdates where
  startedAt : Option Nat
  completedAt : Option Nat
deriving Repr

/-- Merge `updates` into a job: present fields overwrite, absent fields are
left alone. -/
def applyUpdates (j : JobMetadata) (u : JobUpdates) : JobMetadata :=
  { j with
    startedAt := match u.startedAt with
      | Option.some t => Option.some t
      | Option.none => j.startedAt
    completedAt := match u.completedAt with
      | Option.some t => Option.some t
      | Option.none => j.completedAt }

/-- `JobManager.createJob`: fresh PENDING record.  `randomUUID` is modelled
by the caller supplying the fresh identifiers. -/
def createJob (service : String) (parameters : List (String × JSValue))
    (workflow : Workflow) (now : Nat) (jobId clientId : String) : JobMetadata :=
  { jobId := jobId
    service := service
    status := JobStatus.pending
    createdAt := now
    startedAt := Option.none
    completedAt := Option.none
    clientId := clientId
    parameters := parameters
    workflow := workflow
    progress := Option.none
    result := Option.none
    error := Option.none
    promptId := Option.none }

/-- `JobManager.updateJobStatus` restricted to the single affected record:
unconditionally overwrite the status and merge the updates.  (The store
holds at most one record per job id.) -/
def updateJobStatusOne (j : JobMetadata) (st : JobStatus) (u : JobUpdates) : JobMetadata :=
  applyUpdates { j with status := st } u

/-- `JobManager.updateJobStatus` on a whole store: no-op with a warning if
the job id is unknown, otherwise update the record in place. -/
def updateJobStatus (store : List JobMetadata) (jobId : String) (st : JobStatus)
    (u : JobUpdates) : List JobMetadata :=
  if (store.find? (fun j => j.jobId == jobId)).isSome then
    store.map (fun j => if j.jobId == jobId then updateJobStatusOne j st u else j)
  else store

/-- `JobManager.setJobResult` restricted to the affected record: attaches
the result and copies its prompt id; does not touch the status. -/
def setJobResultOne (j : JobMetadata) (r : JobResult) : JobMetadata :=
  { j with result := Option.some r, promptId := Option.some r.promptId }

/-- `JobManager.setJobError` restricted to the affected record: attaches
the error; does not touch the status. -/
def setJobErrorOne (j : JobMetadata) (e : JobError) : JobMetadata :=
  { j with error := Option.some e }

end JobManager

/-! ## Event stream client (`src/src/comfyui/ws.ts`)

`ComfyuiWebsocket.open` is modelled as a state machine over the inbound
event sources of one execution attempt: parsed WebSocket messages, the
watchdog interval ticks, transport errors and the transport close event.
The promise returned by `open` is the `settled` field; `resolve`/`reject`
on an already settled promise are no-ops, modelled by `settleOnce`. -/

/-- Payload of a parsed event (`eventData.data`).  The executed payload is
the `ComfyuiExecutionResult` cast of the source (`node`, `display_node`,
`output.images`, `prompt_id`); `errorMessage` models `data.error.message`
read by the error handler. -/
structure WsEventData where
  node : String
  displayNode : String
  images : List ImageInfo
  promptId : String
  errorMessage : Option String
deriving Repr, DecidableEq

/-- A parsed inbound message (`{type, data, message}`).  The dispatch in the
source is stringly typed (`handles[eventData.type]`), so `type` stays a
string here. -/
structure WsEventMsg where
  type : String
  data : Option WsEventData
  message : Option String
deriving Repr, DecidableEq

/-- `ComfyuiWebsocketError`: message plus optional machine-readable code. -/
structure WsError where
  message : String
  code : Option String
deriving Repr, DecidableEq

/-- Inbound occurrences consumed by one `open` call, in arrival order. -/
inductive WsInput where
  /-- A WebSocket message that parsed to an object with a `type` field. -/
  | message (m : WsEventMsg)
  /-- One tick of the 1-second watchdog interval, carrying the wall-clock
  milliseconds elapsed since the connection opened. -/
  | watchdogTick (elapsed : Nat)
  /-- A transport-level `error` event. -/
  | transportError (emsg : String)
  /-- The transport `close` event. -/
  | transportClose
  /-- A message that failed `jsonTryParse` or lacked a `type`: ignored. -/
  | unparsable
deriving Repr

instance {ε α : Type} [DecidableEq ε] [DecidableEq α] : DecidableEq (Except ε α) := fun x y =>
  match x, y with
  | Except.ok a, Except.ok b =>
    if h : a = b then Decidable.isTrue (by rw [h])
    else Decidable.isFalse (fun c => h (Except.ok.inj c))
  | Except.error e, Except.error f =>
    if h : e = f then Decidable.isTrue (by rw [h])
    else Decidable.isFalse (fun c => h (Except.error.inj c))
  | Except.ok _, Except.error _ => Decidable.isFalse (fun c => Except.noConfusion c)
  | Except.error _, Except.ok _ => Decidable.isFalse (fun c => Except.noConfusion c)

/-- State of one `open` call: whether `close()` has run, the one-shot
promise outcome, and the log of events dispatched to registered
listeners (the internal `EventTarget`), in dispatch order. -/
structure WsState where
  isClosed : Bool
  settled : Option (Except WsError WsEventData)
  dispatched : List WsEventMsg
deriving Repr, DecidableEq

/-- First settlement wins; later `resolve`/`reject` calls are ignored. -/
def settleOnce (cur : Option (Except WsError WsEventData))
    (o : Except WsError WsEventData) : Option (Except WsError WsEventData) :=
  match cur with
  | Option.some x => Option.some x
  | Option.none => Option.some o

/-- JS `a || b` on an optional string: falsy (absent or empty) falls through. -/
def jsStringOr (v : Option String) (dflt : String) : String :=
  match v with
  | Option.some s => if s == "" then dflt else s
  | Option.none => dflt

/-- The initial state of an `open` call. -/
def wsInit : WsState := ⟨false, Option.none, []⟩

/-- One step of the `open` state machine, translated handler by handler
from `ComfyuiWebsocket.open`.  `endNode` is `params.end`, `tmo` the
configured timeout in milliseconds. -/
def wsStep (endNode : String) (tmo : Nat) (st : WsState) (i : WsInput) : WsState :=
  match i with
  | WsInput.message m =>
    -- message handler: `if (this.isClosed) return`
    if st.isClosed then st
    else if m.type == "executing" then
      { st with dispatched := st.dispatched ++ [m] }
    else if m.type == "executed" then
      let currentNode : Option String := m.data.map (fun d => d.node)
      -- `if (endNode && currentNode !== endNode) { dispatch; return }`
      if endNode != "" && currentNode != Option.some endNode then
        { st with dispatched := st.dispatched ++ [m] }
      else
        { st with
          isClosed := true
          settled := settleOnce st.settled (match m.data with
            | Option.some d => Except.ok d
            | Option.none =>
              Except.error ⟨"Invalid executed event data", Option.some "INVALID_EXECUTED_DATA"⟩) }
    else if m.type == "error" then
      let errorMessage :=
        jsStringOr (m.data.bind (fun d => d.errorMessage))
          (jsStringOr m.message "Unknown ComfyUI error")
      { st with
        isClosed := true
        settled := settleOnce st.settled
          (Except.error ⟨"ComfyUI error: " ++ errorMessage, Option.some "EXECUTION_ERROR"⟩) }
    else
      -- `handles[eventData.type]?.()` with no handler entry: ignored
      st
  | WsInput.watchdogTick elapsed =>
    -- interval callback: `if (this.isClosed) ... return`, then the elapsed check
    if st.isClosed then st
    else if tmo ≤ elapsed then
      { st with
        isClosed := true
        settled := settleOnce st.settled
          (Except.error ⟨"ComfyUI timeout after " ++ toString tmo ++ "ms", Option.some "TIMEOUT"⟩) }
    else st
  | WsInput.transportError emsg =>
    { st with
      isClosed := true
      settled := settleOnce st.settled
        (Except.error ⟨"WebSocket error: " ++ emsg, Option.some "WEBSOCKET_ERROR"⟩) }
  | WsInput.transportClose =>
    if st.isClosed then st
    else
      { st with
        isClosed := true
        settled := settleOnce st.settled
          (Except.error
            ⟨"WebSocket connection closed unexpectedly", Option.some "UNEXPECTED_CLOSE"⟩) }
  | WsInput.unparsable => st

/-- Consume a list of inbound occurrences from the initial state. -/
def wsRun (endNode : String) (tmo : Nat) (inputs : List WsInput) : WsState :=
  inputs.foldl (wsStep endNode tmo) wsInit

/-! ## End-node lookup (`src/src/comfyui/index.ts`) -/

/-- `findSaveImageNode`: first node whose `class_type` is exactly
`SaveImage`, else the last node in enumeration order, else an error for an
empty graph. -/
def findSaveImageNode (workflow : Workflow) : Except String String :=
  match workflow.find? (fun p => p.2.class_type == "SaveImage") with
  | Option.some p => Except.ok p.1
  | Option.none =>
    match workflow.getLast? with
    | Option.some p => Except.ok p.1
    | Option.none => Except.error "No nodes found in workflow"

/-- `source` of a declared service output (`{nodeId, outputType?, index?}`). -/
structure ServiceOutputSource where
  nodeId : String
  outputType : Option String
  index : Option Nat
deriving Repr, DecidableEq

/-- A declared service output (`{name, type, description?, source}`). -/
structure ServiceOutput where
  name : String
  type : String
  description : Option String
  source : ServiceOutputSource
deriving Repr, DecidableEq

/-- JS `s.startsWith(pre)`, written on the character lists so that it
evaluates inside the kernel (`String.startsWith` itself does not reduce
there). -/
def strStartsWith (s pre : String) : Bool := pre.data.isPrefixOf s.data

/-- Modelled from the spec: the enhanced end-node resolver `findEndNode`
described in section 4.4 of the specification and in the repository
document `src/unnamed/part_006` (which places it in `src/comfyui/index.ts`
of a newer tree).  That function is absent from this snapshot, which only
contains `findSaveImageNode`.  Priority order, first match wins: the last
declared output of the service configuration; else the first node of exact
type `SaveImage`; else the first node whose type starts with `Save`; else
the last node in enumeration order. -/
def findEndNode (workflow : Workflow) (outputs : Option (List ServiceOutput)) : Option String :=
  let fromOutputs : Option String :=
    (outputs.getD []).getLast?.map (fun o => o.source.nodeId)
  let fromSaveImage : Option String :=
    (workflow.find? (fun p => p.2.class_type == "SaveImage")).map (fun p => p.1)
  let fromSaveStar : Option String :=
    (workflow.find? (fun p => strStartsWith p.2.class_type "Save")).map (fun p => p.1)
  let fromLast : Option String := workflow.getLast?.map (fun p => p.1)
  fromOutputs <|> fromSaveImage <|> fromSaveStar <|> fromLast

/-! ## Image post-processing (`processOutputImages`) -/

/-- Host configuration slice used to build direct-access URLs. -/
structure ComfyUIHostConfig where
  httpProtocol : String
  host : String
deriving Repr

/-- The `/view` direct-access URL for an image.  `enc` abstracts
`encodeURIComponent` (an external runtime primitive). -/
def viewUrl (enc : String → String) (cfg : ComfyUIHostConfig) (im : ImageInfo) : String :=
  cfg.httpProtocol ++ "://" ++ cfg.host ++ "/view?filename=" ++ enc im.filename
    ++ "&subfolder=" ++ enc im.subfolder
    ++ "&type=" ++ enc (if im.type == "" then "output" else im.type)

/-- One image of the `Promise.all` body of `processOutputImages`.
`relay` abstracts the try-block that downloads the image and uploads it to
S3: `some u` means the relay succeeded with URL `u`; `none` means an
exception was caught, logged, and `s3Url` left unset — the direct URL is
kept as fallback either way. -/
def processOneImage (enc : String → String) (cfg : ComfyUIHostConfig) (s3Enabled : Bool)
    (relay : ImageInfo → Option String) (im : ImageInfo) : ResultImage :=
  { filename := im.filename
    subfolder := im.subfolder
    type := if im.type == "" then "output" else im.type
    url := Option.some (viewUrl enc cfg im)
    s3Url := if s3Enabled then relay im else Option.none }

/-- `processOutputImages`: every image of the raw payload is processed
independently. -/
def processOutputImages (enc : String → String) (cfg : ComfyUIHostConfig) (s3Enabled : Bool)
    (relay : ImageInfo → Option String) (images : List ImageInfo) : List ResultImage :=
  images.map (processOneImage enc cfg s3Enabled relay)

/-! ## Executor tail (`executeJobAsync` and
`ComfyuiWebsocketEnhanced.executeWithJobTracking`) -/

/-- The `JobResult` built by `executeWithJobTracking` from a resolved
`open` payload (before the caller overwrites `images` and
`executionTime`). -/
def buildTrackedResult (d : WsEventData) (history : List NodeExecutionHistoryEntry) : JobResult :=
  { images := d.images.map (fun im =>
      { filename := im.filename
        subfolder := im.subfolder
        type := if im.type == "" then "output" else im.type
        url := Option.none
        s3Url := Option.none })
    node := d.node
    displayNode := d.displayNode
    promptId := d.promptId
    executionTime := 0
    nodeHistory := history }

/-- The tail of `executeJobAsync` applied to the settled outcome of the
tracked execution, restricted to the affected job record.  On success:
process all output images, attach the result, then set COMPLETED.  On
failure: attach the error, then set FAILED (the enhanced client already
performed the same two writes before rethrowing; the second application is
idempotent on the record, so the net effect is shown once).  The source
reads `job.startedAt!` for the execution time; an absent `startedAt` is
outside the modelled range and mapped to 0. -/
def executeJobAsyncFinish (enc : String → String) (cfg : ComfyUIHostConfig) (s3Enabled : Bool)
    (relay : ImageInfo → Option String) (j : JobMetadata) (now : Nat)
    (history : List NodeExecutionHistoryEntry)
    (outcome : Except WsError WsEventData) : JobMetadata :=
  match outcome with
  | Except.ok d =>
    let tracked := buildTrackedResult d history
    let images := processOutputImages enc cfg s3Enabled relay d.images
    let res := { tracked with
      images := images
      executionTime := (now : Int) - (match j.startedAt with
        | Option.some t => (t : Int)
        | Option.none => 0) }
    JobManager.updateJobStatusOne (JobManager.setJobResultOne j res)
      JobStatus.completed ⟨Option.none, Option.some now⟩
  | Except.error e =>
    JobManager.updateJobStatusOne (JobManager.setJobErrorOne j ⟨e.message, e.code⟩)
      JobStatus.failed ⟨Option.none, Option.some now⟩

/-! ## Parameter validation and the REST submit/cancel handlers
(`src/src/api/routes.ts`) -/

/-- A declared service parameter.  `type` stays a string because the
source switches on string literals with no default case. -/
structure ServiceParameter where
  name : String
  type : String
  description : String
  required : Bool
  default : Option JSValue
  comfyuiNodeId : String
  comfyuiWidgetName : String
deriving Repr

/-- A resolved service descriptor from the configuration. -/
structure ServiceConfig where
  name : String
  description : String
  route : Option String
  comfyuiWorkflowApi : String
  parameters : List ServiceParameter
  outputs : Option (List ServiceOutput)
deriving Repr

/-- JS property read `body[name]`: absent keys read as `undefined`. -/
def jsGet (body : List (String × JSValue)) (k : String) : JSValue :=
  match body.find? (fun p => p.1 == k) with
  | Option.some p => p.2
  | Option.none => JSValue.undef

/-- `isEmptyValue`: null/undefined, blank strings, empty arrays and empty
objects are empty; numbers and booleans never are. -/
def isEmptyValue : JSValue → Bool
  | JSValue.jsNull => true
  | JSValue.undef => true
  | JSValue.str s => s.trim == ""
  | JSValue.arr xs => xs.isEmpty
  | JSValue.obj fs => fs.isEmpty
  | JSValue.num _ => false
  | JSValue.nan => false
  | JSValue.bool _ => false

/-- Is the value the NaN number (`typeof` is number but `isNaN` holds)? -/
def JSValue.isNan : JSValue → Bool
  | JSValue.nan => true
  | _ => false

/-- Is the value the JS `null`? -/
def JSValue.isNull : JSValue → Bool
  | JSValue.jsNull => true
  | _ => false

/-- A validation error entry.  The source wraps the parameter name in
single quotes inside the message; the quotes are elided here. -/
structure ValidationError where
  parameter : String
  message : String
deriving Repr, DecidableEq

/-- Result shape of `validateParameters` in `routes.ts`. -/
structure ValidationResult where
  valid : Bool
  errors : List ValidationError
deriving Repr, DecidableEq

/-- The switch over `param.type` for a non-empty value; an unknown type
string matches no case and produces no error. -/
def typeCheckErrors (param : ServiceParameter) (value : JSValue) : List ValidationError :=
  if param.type == "string" then
    if value.typeofStr != "string" then
      [⟨param.name, "Parameter " ++ param.name ++ " must be a string, received "
        ++ value.typeofStr⟩]
    else []
  else if param.type == "number" then
    if value.typeofStr != "number" || value.isNan then
      [⟨param.name, "Parameter " ++ param.name ++ " must be a valid number"⟩]
    else []
  else if param.type == "boolean" then
    if value.typeofStr != "boolean" then
      [⟨param.name, "Parameter " ++ param.name ++ " must be a boolean"⟩]
    else []
  else if param.type == "array" then
    if !value.isArray then
      [⟨param.name, "Parameter " ++ param.name ++ " must be an array"⟩]
    else []
  else if param.type == "object" then
    if value.typeofStr != "object" || value.isArray || value.isNull then
      [⟨param.name, "Parameter " ++ param.name ++ " must be an object"⟩]
    else []
  else []

/-- Errors contributed by one parameter: a required empty value short
circuits (`continue`); any non-empty value is type checked. -/
def validateParam (param : ServiceParameter) (value : JSValue) : List ValidationError :=
  if param.required && isEmptyValue value then
    [⟨param.name, "Required parameter " ++ param.name ++ " is missing or empty"⟩]
  else if !isEmptyValue value then typeCheckErrors param value
  else []

/-- `validateParameters` from `routes.ts`: fold over the declared
parameters, collecting errors in declaration order. -/
def validateParameters (service : ServiceConfig) (body : List (String × JSValue)) :
    ValidationResult :=
  let errors := service.parameters.foldl
    (fun acc param => acc ++ validateParam param (jsGet body param.name)) []
  ⟨errors.isEmpty, errors⟩

/-- Overwrite (or add) one `inputs` entry of a node. -/
def setInputField (fields : List (String × JSValue)) (k : String) (v : JSValue) :
    List (String × JSValue) :=
  if (fields.find? (fun q => q.1 == k)).isSome then
    fields.map (fun q => if q.1 == k then (q.1, v) else q)
  else fields ++ [(k, v)]

/-- `workflow[param.comfyuiNodeId].inputs[param.comfyuiWidgetName] = value`
on the association-list workflow. -/
def setNodeInput (w : Workflow) (nodeId widget : String) (v : JSValue) : Workflow :=
  w.map (fun p =>
    if p.1 == nodeId then (p.1, { p.2 with inputs := setInputField p.2.inputs widget v })
    else p)

/-- The parameter-mapping loop of the submit handlers: for each declared
parameter, take the request value or the declared default; skip when the
value is undefined or the target node is absent. -/
def applyParameterMappings (service : ServiceConfig) (body : List (String × JSValue))
    (wf : Workflow) : Workflow :=
  service.parameters.foldl
    (fun w param =>
      let value : JSValue := match jsGet body param.name with
        | JSValue.undef => param.default.getD JSValue.undef
        | v => v
      match value with
      | JSValue.undef => w
      | v =>
        if (w.find? (fun p => p.1 == param.comfyuiNodeId)).isSome then
          setNodeInput w param.comfyuiNodeId param.comfyuiWidgetName v
        else w)
    wf

/-- Response of `POST /api/v1/services/:service_name`, reduced to the
cases the claims speak about. -/
inductive SubmitResponse where
  | notFound (serviceName : String)
  | badRequest (errors : List ValidationError)
  | created (jobId : String)
deriving Repr

/-- The synchronous part of the submit handler: find the service, validate,
load and parameterize the workflow, create the job.  The background
execution is launched after the store update and does not affect the
synchronous response.  `loadWorkflow` abstracts the template storage. -/
def postServiceRoute (services : List ServiceConfig) (loadWorkflow : String → Workflow)
    (serviceName : String) (body : List (String × JSValue)) (store : List JobMetadata)
    (now : Nat) (jobId clientId : String) : SubmitResponse × List JobMetadata :=
  match services.find? (fun s => s.name == serviceName) with
  | Option.none => (SubmitResponse.notFound serviceName, store)
  | Option.some service =>
    let validation := validateParameters service body
    if !validation.valid then (SubmitResponse.badRequest validation.errors, store)
    else
      let wf := applyParameterMappings service body (loadWorkflow service.comfyuiWorkflowApi)
      let job := JobManager.createJob serviceName body wf now jobId clientId
      (SubmitResponse.created job.jobId, store ++ [job])

/-- Response of `DELETE /api/v1/jobs/:job_id`. -/
inductive CancelResponse where
  | notFound (jobId : String)
  | alreadyFinished (st : JobStatus)
  | alreadyCancelled
  | cancelledNow
deriving Repr, DecidableEq

/-- The cancel handler: 404 for unknown ids; completed/failed and
cancelled jobs are reported as is; anything else is moved to CANCELLED
with a `completedAt` stamp. -/
def cancelJobRoute (store : List JobMetadata) (jobId : String) (now : Nat) :
    List JobMetadata × CancelResponse :=
  match store.find? (fun j => j.jobId == jobId) with
  | Option.none => (store, CancelResponse.notFound jobId)
  | Option.some job =>
    if job.status == JobStatus.completed || job.status == JobStatus.failed then
      (store, CancelResponse.alreadyFinished job.status)
    else if job.status == JobStatus.cancelled then
      (store, CancelResponse.alreadyCancelled)
    else
      (JobManager.updateJobStatus store jobId JobStatus.cancelled
        ⟨Option.none, Option.some now⟩,
       CancelResponse.cancelledNow)

/-! ## Observable job lifecycle

The runtime is a single-threaded event loop: other tasks (pollers, the
cancel route) only interleave with the background executor at `await`
boundaries.  Each constructor below is therefore one *synchronous
segment* of the source between two suspension points, applied to the
affected job record:

* `applyStart` — the prologue of `executeJobAsync` together with the first
  lines of `executeWithJobTracking`, both of which set RUNNING and
  `startedAt` before the first `await`;
* `applyComplete` — the success tail of `executeJobAsync`:
  `setJobResult` immediately followed by `updateJobStatus(COMPLETED)`,
  with no `await` in between;
* `applyFail` — the catch blocks of `executeWithJobTracking` and of
  `executeJobAsync`: `setJobError` immediately followed by
  `updateJobStatus(FAILED)` (the outer catch repeats the inner one);
* `applyCancelOne` — the DELETE handler restricted to the affected record.
-/

/-- RUNNING transition with `startedAt`. -/
def applyStart (j : JobMetadata) (now : Nat) : JobMetadata :=
  JobManager.updateJobStatusOne j JobStatus.running ⟨Option.some now, Option.none⟩

/-- Result attachment atomically followed by the COMPLETED transition. -/
def applyComplete (j : JobMetadata) (r : JobResult) (now : Nat) : JobMetadata :=
  JobManager.updateJobStatusOne (JobManager.setJobResultOne j r)
    JobStatus.completed ⟨Option.none, Option.some now⟩

/-- Error attachment atomically followed by the FAILED transition. -/
def applyFail (j : JobMetadata) (e : JobError) (now : Nat) : JobMetadata :=
  JobManager.updateJobStatusOne (JobManager.setJobErrorOne j e)
    JobStatus.failed ⟨Option.none, Option.some now⟩

/-- The cancel handler on the affected record: completed, failed and
cancelled jobs are left alone, anything else becomes CANCELLED. -/
def applyCancelOne (j : JobMetadata) (now : Nat) : JobMetadata :=
  if j.status == JobStatus.completed || j.status == JobStatus.failed then j
  else if j.status == JobStatus.cancelled then j
  else JobManager.updateJobStatusOne j JobStatus.cancelled ⟨Option.none, Option.some now⟩

/-- Phase of the background executor, used to index reachable states. -/
inductive ExecPhase where
  /-- Job created, the background task has not reached its first segment. -/
  | beforeStart
  /-- The RUNNING segment ran; the task is suspended on the stream. -/
  | inFlight
  /-- The success tail ran. -/
  | doneOk
  /-- The inner (enhanced-client) catch ran; the rethrow is in flight. -/
  | failedInner
  /-- The outer catch ran. -/
  | failedOuter
deriving Repr, DecidableEq

/-- States of one job record observable at `await` boundaries: the record
just after `createJob`, then after any interleaving of the background
segments (in their program order) with cancel requests. -/
inductive JobReachable : ExecPhase → JobMetadata → Prop where
  | init (service : String) (parameters : List (String × JSValue)) (workflow : Workflow)
      (now : Nat) (jobId clientId : String) :
      JobReachable ExecPhase.beforeStart
        (JobManager.createJob service parameters workflow now jobId clientId)
  | cancel {ph : ExecPhase} {j : JobMetadata} (now : Nat) :
      JobReachable ph j → JobReachable ph (applyCancelOne j now)
  | start {j : JobMetadata} (now : Nat) :
      JobReachable ExecPhase.beforeStart j →
      JobReachable ExecPhase.inFlight (applyStart j now)
  | complete {j : JobMetadata} (r : JobResult) (now : Nat) :
      JobReachable ExecPhase.inFlight j →
      JobReachable ExecPhase.doneOk (applyComplete j r now)
  | failInner {j : JobMetadata} (e : JobError) (now : Nat) :
      JobReachable ExecPhase.inFlight j →
      JobReachable ExecPhase.failedInner (applyFail j e now)
  | failOuterDirect {j : JobMetadata} (e : JobError) (now : Nat) :
      JobReachable ExecPhase.inFlight j →
      JobReachable ExecPhase.failedOuter (applyFail j e now)
  | failOuterAfterInner {j : JobMetadata} (e : JobError) (now : Nat) :
      JobReachable ExecPhase.failedInner j →
      JobReachable ExecPhase.failedOuter (applyFail j e now)

/-! ## Concrete sample data used by the evaluations and witnesses -/

/-- A minimal job record with the given id, creation time and status. -/
def sampleJob (id : String) (created : Nat) (st : JobStatus) : JobMetadata :=
  { jobId := id
    service := "text_to_image"
    status := st
    createdAt := created
    startedAt := Option.none
    completedAt := Option.none
    clientId := "c-" ++ id
    parameters := []
    workflow := []
    progress := Option.none
    result := Option.none
    error := Option.none
    promptId := Option.none }

/-- The three-node example graph of the specification:
`{"1":KSampler, "2":SaveImage, "3":StringConstant}`. -/
def exampleGraph : Workflow :=
  [("1", ⟨[], "KSampler"⟩), ("2", ⟨[], "SaveImage"⟩), ("3", ⟨[], "StringConstant"⟩)]

/-- The output configuration of the specification example:
`[{name:"url", source:{nodeId:"3"}}]`. -/
def exampleOutputs : List ServiceOutput :=
  [⟨"url", "text", Option.none, ⟨"3", Option.none, Option.none⟩⟩]

/-- A graph whose only save node is a custom `Save`-prefixed type. -/
def exampleGraphSaveStar : Workflow :=
  [("1", ⟨[], "SaveImageS3"⟩), ("2", ⟨[], "KSampler"⟩)]

/-- The `executed` payload for node `n` used in the stream scenarios. -/
def execData (n : String) : WsEventData :=
  ⟨n, n, [], "prompt-" ++ n, Option.none⟩

/-- An inbound `executed` message for node `n`. -/
def executedInput (n : String) : WsInput :=
  WsInput.message ⟨"executed", Option.some (execData n), Option.none⟩

/-- The watchdog rejection produced after the 10-minute executor timeout. -/
def wsTimeoutError : WsError :=
  ⟨"ComfyUI timeout after 600000ms", Option.some "TIMEOUT"⟩

/-- A service declaring one required string parameter, for the submit
scenarios. -/
def sampleService : ServiceConfig :=
  ⟨"text_to_image", "demo service", Option.none, "wf.json",
    [⟨"prompt", "string", "the prompt", true, Option.none, "6", "text"⟩], Option.none⟩

-- Sanity checks of the embedding on concrete data.

example :
    (JobStorage.list
      [sampleJob "a" 1 JobStatus.pending, sampleJob "b" 3 JobStatus.pending,
       sampleJob "c" 2 JobStatus.pending] JobFilters.none).map (fun j => j.jobId)
      = ["b", "c", "a"] := by
  rfl

example :
    (JobStorage.cleanupOldJobs
      [sampleJob "a" 1 JobStatus.running, sampleJob "b" 3 JobStatus.pending,
       sampleJob "c" 2 JobStatus.completed] 3).2 = 2 := by
  rfl

example : (wsRun "9" 600000 [executedInput "5"]).settled = Option.none := by rfl

example : (wsRun "9" 600000 [executedInput "5", executedInput "9"]).settled
    = Option.some (Except.ok (execData "9")) := by rfl

/-- Phase-indexed invariant of one job record, used to strengthen the C5
induction: which fields can be populated and which statuses are possible
in each phase of the background executor. -/
def phaseInv : ExecPhase → JobMetadata → Prop
  | ExecPhase.beforeStart, j =>
      j.result = Option.none ∧ j.error = Option.none ∧
        (j.status = JobStatus.pending ∨ j.status = JobStatus.cancelled)
  | ExecPhase.inFlight, j =>
      j.result = Option.none ∧ j.error = Option.none ∧
        (j.status = JobStatus.running ∨ j.status = JobStatus.cancelled)
  | ExecPhase.doneOk, j =>
      j.result.isSome = true ∧ j.error = Option.none ∧
        j.status = JobStatus.completed
  | ExecPhase.failedInner, j =>
      j.result = Option.none ∧ j.error.isSome = true ∧
        j.status = JobStatus.failed
  | ExecPhase.failedOuter, j =>
      j.result = Option.none ∧ j.error.isSome = true ∧
        j.status = JobStatus.failed

/-- Does a job pass an (effective) service filter? -/
def svPred : Option String → JobMetadata → Bool
  | Option.some s, j => j.service == s
  | Option.none, _ => true

/-- Does a job pass an (effective) status filter? -/
def stPred : Option JobStatus → JobMetadata → Bool
  | Option.some t, j => j.status == t
  | Option.none, _ => true

/-! ## Claim theorems -/

/-- Unfolding lemma for `cleanupOldJobs` on a cons cell. -/
theorem cleanupOldJobs_cons (a : JobMetadata) (rest : List JobMetadata) (cutoff : Nat) :
    JobStorage.cleanupOldJobs (a :: rest) cutoff =
      if a.createdAt < cutoff then
        ((JobStorage.cleanupOldJobs rest cutoff).1,
         (JobStorage.cleanupOldJobs rest cutoff).2 + 1)
      else
        (a :: (JobStorage.cleanupOldJobs rest cutoff).1,
         (JobStorage.cleanupOldJobs rest cutoff).2) := rfl

/-- Claim C7: `cleanupOlderThan(cutoff)` deletes exactly the jobs whose
`createdAt` is strictly before the cutoff, regardless of status, returns
the number deleted, and leaves every job with `createdAt >= cutoff`
untouched (the survivors are precisely the filter of the old store, with
records and order unchanged). -/
theorem cleanupOldJobs_contract (l : List JobMetadata) (cutoff : Nat) :
    (JobStorage.cleanupOldJobs l cutoff).1
        = l.filter (fun j => decide (cutoff ≤ j.createdAt)) ∧
    (JobStorage.cleanupOldJobs l cutoff).2
        = (l.filter (fun j => decide (j.createdAt < cutoff))).length ∧
    (JobStorage.cleanupOldJobs l cutoff).1.length
        + (JobStorage.cleanupOldJobs l cutoff).2 = l.length ∧
    ∀ j, j ∈ (JobStorage.cleanupOldJobs l cutoff).1 ↔ j ∈ l ∧ cutoff ≤ j.createdAt := by
  induction l with
  | nil => simp [JobStorage.cleanupOldJobs]
  | cons a rest ih =>
    obtain ⟨h1, h2, h3, h4⟩ := ih
    rw [cleanupOldJobs_cons]
    by_cases hc : a.createdAt < cutoff
    · rw [if_pos hc]
      refine ⟨?_, ?_, ?_, ?_⟩
      · simpa [List.filter_cons, Nat.not_le_of_lt hc] using h1
      · simpa [List.filter_cons, hc] using h2
      · simp only [List.length_cons]
        omega
      · intro j
        rw [h4 j]
        constructor
        · intro hj
          exact ⟨List.mem_cons_of_mem _ hj.1, hj.2⟩
        · rintro ⟨hj, hle⟩
          rcases List.mem_cons.mp hj with rfl | hj2
          · exact absurd hle (Nat.not_le_of_lt hc)
          · exact ⟨hj2, hle⟩
    · have hle : cutoff ≤ a.createdAt := Nat.le_of_not_lt hc
      rw [if_neg hc]
      refine ⟨?_, ?_, ?_, ?_⟩
      · simp [List.filter_cons, hle, h1]
      · simpa [List.filter_cons, hc] using h2
      · simp only [List.length_cons]
        omega
      · intro j
        simp only [List.mem_cons, h4 j]
        constructor
        · rintro (rfl | ⟨hj, hle2⟩)
          · exact ⟨Or.inl rfl, hle⟩
          · exact ⟨Or.inr hj, hle2⟩
        · rintro ⟨rfl | hj, hle2⟩
          · exact Or.inl rfl
          · exact Or.inr ⟨hj, hle2⟩

/-- Claim C10: the pagination fields are checked for JS truthiness, so a
limit of 0 returns the full filtered and sorted list (identical to an
absent limit) and an offset of 0 behaves identically to an absent
offset. -/
theorem list_zero_pagination (jobs : List JobMetadata) (sv : Option String)
    (st : Option JobStatus) (lim off : Option Nat) :
    JobStorage.list jobs ⟨sv, st, Option.some 0, off⟩
        = JobStorage.list jobs ⟨sv, st, Option.none, off⟩ ∧
    JobStorage.list jobs ⟨sv, st, lim, Option.some 0⟩
        = JobStorage.list jobs ⟨sv, st, lim, Option.none⟩ := by
  constructor
  · simp [JobStorage.list]
  · simp [JobStorage.list]

/-- Claim C1 (code divergence): on the example graph of the specification
the end node actually used by `executeJobAsync` is computed by
`findSaveImageNode`, which ignores the declared outputs entirely and
returns node `"2"`, while the resolver described by the claim (modelled by
`findEndNode`) returns `"3"` for the declared output configuration.
Likewise the shipped code has no `Save` prefix step: on a graph whose only
save node is `SaveImageS3` it falls back to the last node `"2"` instead of
`"1"`. -/
theorem findSaveImageNode_ignores_outputs :
    findSaveImageNode exampleGraph = Except.ok "2" ∧
    findEndNode exampleGraph (Option.some exampleOutputs) = Option.some "3" ∧
    ("2" : String) ≠ "3" ∧
    findSaveImageNode exampleGraphSaveStar = Except.ok "2" ∧
    findEndNode exampleGraphSaveStar Option.none = Option.some "1" := by
  refine ⟨rfl, rfl, by decide, rfl, rfl⟩

/-- Claim C3 (code divergence): a watchdog expiry settles the stream
client with a `TIMEOUT`-coded rejection, and the executor tail records
every rejection — including that one — as status FAILED; no path assigns
the distinct terminal status TIMEOUT. -/
theorem watchdog_expiry_recorded_as_failed :
    (wsRun "9" 600000 [WsInput.watchdogTick 600000]).settled
        = Option.some (Except.error wsTimeoutError) ∧
    (executeJobAsyncFinish id ⟨"http", "host"⟩ false (fun _ => Option.none)
        (sampleJob "j1" 1 JobStatus.running) 5 [] (Except.error wsTimeoutError)).status
        = JobStatus.failed ∧
    (executeJobAsyncFinish id ⟨"http", "host"⟩ false (fun _ => Option.none)
        (sampleJob "j1" 1 JobStatus.running) 5 [] (Except.error wsTimeoutError)).error
        = Option.some ⟨"ComfyUI timeout after 600000ms", Option.some "TIMEOUT"⟩ ∧
    JobStatus.failed ≠ JobStatus.timeout ∧
    ∀ (enc : String → String) (cfg : ComfyUIHostConfig) (s3e : Bool)
      (relay : ImageInfo → Option String) (j : JobMetadata) (now : Nat)
      (hist : List NodeExecutionHistoryEntry) (e : WsError),
      (executeJobAsyncFinish enc cfg s3e relay j now hist (Except.error e)).status
        = JobStatus.failed := by
  refine ⟨rfl, rfl, rfl, by decide, ?_⟩
  intro enc cfg s3e relay j now hist e
  rfl

/-- Claim C4 counterexample, in two parts.  First, the cancel handler does
not treat TIMEOUT as terminal: cancelling a job whose status is TIMEOUT
changes its status to CANCELLED instead of leaving it unchanged.  Second,
terminal-status immutability also fails for CANCELLED at a reachable
state: a job cancelled while its execution is in flight (create, start,
cancel — a derivable `JobReachable` trace) is overwritten to COMPLETED by
the success tail of the executor, because `updateJobStatus` applies any
transition without a terminal-state guard. -/
theorem cancel_timeout_job_changes_status :
    ((cancelJobRoute [sampleJob "t1" 10 JobStatus.timeout] "t1" 99).1.map
        (fun j => j.status)) = [JobStatus.cancelled] ∧
    (cancelJobRoute [sampleJob "t1" 10 JobStatus.timeout] "t1" 99).2
        = CancelResponse.cancelledNow ∧
    JobStatus.cancelled ≠ JobStatus.timeout ∧
    (applyCancelOne (applyStart
        (JobManager.createJob "text_to_image" [] [] 0 "jid2" "cid2") 1) 2).status
      = JobStatus.cancelled ∧
    JobReachable ExecPhase.doneOk
      (applyComplete (applyCancelOne (applyStart
          (JobManager.createJob "text_to_image" [] [] 0 "jid2" "cid2") 1) 2)
        ⟨[], "9", "9", "p", 0, []⟩ 3) ∧
    (applyComplete (applyCancelOne (applyStart
        (JobManager.createJob "text_to_image" [] [] 0 "jid2" "cid2") 1) 2)
      ⟨[], "9", "9", "p", 0, []⟩ 3).status = JobStatus.completed ∧
    JobStatus.completed ≠ JobStatus.cancelled :=
  ⟨rfl, rfl, by decide, rfl,
   JobReachable.complete _ _ (JobReachable.cancel _ (JobReachable.start _
     (JobReachable.init "text_to_image" [] [] 0 "jid2" "cid2"))),
   rfl, by decide⟩

/-- Claim C4 as amended: re-requesting cancellation of a job in COMPLETED,
FAILED or CANCELLED status is idempotent — the store is unchanged and the
current status is reported rather than an error.  Beyond that, terminal
statuses are not immutable: TIMEOUT is not in the terminal check of the
cancel handler, so cancelling a TIMEOUT job moves it to CANCELLED; and the
Job Manager enforces no terminal-state guard, so the executor tail
overwrites the status of a CANCELLED job with COMPLETED on success and
FAILED on failure when its still-open stream settles — cancellation is
advisory only. -/
theorem cancel_terminal_contract (store : List JobMetadata) (id : String) (now : Nat)
    (job : JobMetadata) (h : store.find? (fun j => j.jobId == id) = Option.some job) :
    (job.status = JobStatus.completed ∨ job.status = JobStatus.failed →
      cancelJobRoute store id now = (store, CancelResponse.alreadyFinished job.status)) ∧
    (job.status = JobStatus.cancelled →
      cancelJobRoute store id now = (store, CancelResponse.alreadyCancelled)) ∧
    (job.status = JobStatus.timeout →
      cancelJobRoute store id now
        = (JobManager.updateJobStatus store id JobStatus.cancelled
            ⟨Option.none, Option.some now⟩, CancelResponse.cancelledNow)) ∧
    (∀ (j : JobMetadata) (r : JobResult) (e : JobError) (later : Nat),
      j.status = JobStatus.cancelled →
      (applyComplete j r later).status = JobStatus.completed ∧
      (applyFail j e later).status = JobStatus.failed) := by
  refine ⟨?_, ?_, ?_, ?_⟩
  · rintro (hs | hs) <;> simp [cancelJobRoute, h, hs]
  · intro hs
    simp [cancelJobRoute, h, hs]
  · intro hs
    simp [cancelJobRoute, h, hs]
  · intro j r e later _
    exact ⟨rfl, rfl⟩

/-- Witness for the amended C4 theorem: idempotent cancellation of a
concrete completed job, and the executor success tail overwriting a
concrete cancelled job. -/
theorem cancel_terminal_contract_witness :
    cancelJobRoute [sampleJob "d1" 3 JobStatus.completed] "d1" 7
      = ([sampleJob "d1" 3 JobStatus.completed],
         CancelResponse.alreadyFinished JobStatus.completed) ∧
    (applyComplete (sampleJob "x1" 1 JobStatus.cancelled)
        ⟨[], "9", "9", "p", 0, []⟩ 4).status = JobStatus.completed :=
  ⟨(cancel_terminal_contract [sampleJob "d1" 3 JobStatus.completed] "d1" 7
      (sampleJob "d1" 3 JobStatus.completed) rfl).1 (Or.inl rfl),
   ((cancel_terminal_contract [sampleJob "d1" 3 JobStatus.completed] "d1" 7
      (sampleJob "d1" 3 JobStatus.completed) rfl).2.2.2
      (sampleJob "x1" 1 JobStatus.cancelled) ⟨[], "9", "9", "p", 0, []⟩
      ⟨"boom", Option.none⟩ 4 rfl).1⟩

/-- Claim C2: with a configured (non-empty) end node id, an `executed`
event for a different node never settles the promise of `open`: the state
stays unsettled, the event is appended to the listener dispatch log, and
the stream stays open; an `executed` event for the end node itself settles
the promise with the payload of that event.  Concretely, for the stream
`executed "5"` then `executed "9"` with end node `"9"`, nothing is settled
after the first event, the `"5"` event is already observable by listeners,
and the promise resolves with the `"9"` payload after the second. -/
theorem executed_nonend_never_settles (endNode : String) (tmo : Nat) (st : WsState)
    (m : WsEventMsg) (d : WsEventData)
    (hend : endNode ≠ "") (hm : m.type = "executed") (hd : m.data = Option.some d)
    (hnode : d.node ≠ endNode) (hopen : st.isClosed = false) :
    (wsStep endNode tmo st (WsInput.message m)).settled = st.settled ∧
    (wsStep endNode tmo st (WsInput.message m)).dispatched = st.dispatched ++ [m] ∧
    (wsStep endNode tmo st (WsInput.message m)).isClosed = false ∧
    (∀ d2 : WsEventData, d2.node = endNode →
      (wsStep endNode tmo st
          (WsInput.message ⟨"executed", Option.some d2, Option.none⟩)).settled
        = settleOnce st.settled (Except.ok d2)) ∧
    (wsRun "9" 600000 [executedInput "5"]).settled = Option.none ∧
    (⟨"executed", Option.some (execData "5"), Option.none⟩ : WsEventMsg)
        ∈ (wsRun "9" 600000 [executedInput "5"]).dispatched ∧
    (wsRun "9" 600000 [executedInput "5", executedInput "9"]).settled
        = Option.some (Except.ok (execData "9")) := by
  have hcond : (endNode != "" && (m.data.map (fun d => d.node) != Option.some endNode)) = true := by
    rw [hd]
    simp [hend, hnode]
  refine ⟨?_, ?_, ?_, ?_, rfl, by decide, rfl⟩
  · simp [wsStep, hopen, hm, hcond]
  · simp [wsStep, hopen, hm, hcond]
  · simp [wsStep, hopen, hm, hcond]
  · intro d2 hd2
    simp [wsStep, hopen, hd2, hd]

/-- Witness for the C2 theorem at the concrete `"5"` event with end node
`"9"` from the initial state. -/
theorem executed_nonend_never_settles_witness :
    (wsStep "9" 600000 wsInit
        (WsInput.message ⟨"executed", Option.some (execData "5"), Option.none⟩)).settled
      = wsInit.settled :=
  (executed_nonend_never_settles "9" 600000 wsInit
    ⟨"executed", Option.some (execData "5"), Option.none⟩ (execData "5")
    (by decide) rfl rfl (by decide) rfl).1

/-- Claim C9: a submit request that fails synchronously — unknown service
name, or parameters failing validation — reports the error in the
response and leaves the job store untouched, so every subsequent
`listJobs` result is unchanged. -/
theorem submit_failure_creates_no_job (services : List ServiceConfig)
    (lw : String → Workflow) (name : String) (body : List (String × JSValue))
    (store : List JobMetadata) (now : Nat) (jid cid : String) :
    (services.find? (fun s => s.name == name) = Option.none →
      postServiceRoute services lw name body store now jid cid
        = (SubmitResponse.notFound name, store)) ∧
    (∀ svc, services.find? (fun s => s.name == name) = Option.some svc →
      (validateParameters svc body).valid = false →
      postServiceRoute services lw name body store now jid cid
        = (SubmitResponse.badRequest (validateParameters svc body).errors, store)) ∧
    (∀ f : JobFilters,
      (services.find? (fun s => s.name == name) = Option.none ∨
        ∃ svc, services.find? (fun s => s.name == name) = Option.some svc ∧
          (validateParameters svc body).valid = false) →
      JobStorage.list (postServiceRoute services lw name body store now jid cid).2 f
        = JobStorage.list store f) := by
  refine ⟨?_, ?_, ?_⟩
  · intro h
    simp [postServiceRoute, h]
  · intro svc h hv
    simp [postServiceRoute, h, hv]
  · intro f hf
    rcases hf with h | ⟨svc, h, hv⟩
    · simp [postServiceRoute, h]
    · simp [postServiceRoute, h, hv]

/-- Witness for the C9 theorem: an unknown service name and a missing
required parameter, both against a one-service configuration and an empty
store. -/
theorem submit_failure_creates_no_job_witness :
    postServiceRoute [sampleService] (fun _ => []) "nope" [] [] 0 "j" "c"
      = (SubmitResponse.notFound "nope", []) ∧
    postServiceRoute [sampleService] (fun _ => []) "text_to_image" [] [] 0 "j" "c"
      = (SubmitResponse.badRequest (validateParameters sampleService []).errors, []) := by
  constructor
  · exact (submit_failure_creates_no_job [sampleService] (fun _ => []) "nope" [] [] 0 "j" "c").1
      rfl
  · exact (submit_failure_creates_no_job [sampleService] (fun _ => []) "text_to_image" [] []
      0 "j" "c").2.1 sampleService rfl rfl

/-- The cancel handler leaves a record alone when its status is COMPLETED,
FAILED or CANCELLED. -/
theorem applyCancelOne_terminal (j : JobMetadata) (now : Nat)
    (h : j.status = JobStatus.completed ∨ j.status = JobStatus.failed ∨
      j.status = JobStatus.cancelled) :
    applyCancelOne j now = j := by
  rcases h with h | h | h <;> simp [applyCancelOne, h]

/-- The cancel handler moves any other record to CANCELLED with a
`completedAt` stamp. -/
theorem applyCancelOne_active (j : JobMetadata) (now : Nat)
    (h1 : j.status ≠ JobStatus.completed) (h2 : j.status ≠ JobStatus.failed)
    (h3 : j.status ≠ JobStatus.cancelled) :
    applyCancelOne j now
      = { j with status := JobStatus.cancelled, completedAt := Option.some now } := by
  simp [applyCancelOne, h1, h2, h3, JobManager.updateJobStatusOne, JobManager.applyUpdates]

/-- Phase-indexed strengthening of the C5 invariant, proved over all
states observable at `await` boundaries. -/
theorem jobReachable_strong {ph : ExecPhase} {j : JobMetadata}
    (h : JobReachable ph j) : phaseInv ph j := by
  induction h with
  | init service parameters workflow now jobId clientId =>
    exact ⟨rfl, rfl, Or.inl rfl⟩
  | @cancel ph j now hprev ih =>
    cases ph with
    | beforeStart =>
      obtain ⟨hr, he, hst⟩ := ih
      show phaseInv ExecPhase.beforeStart (applyCancelOne j now)
      rcases hst with hst | hst
      · rw [phaseInv, applyCancelOne_active j now (by simp [hst]) (by simp [hst]) (by simp [hst])]
        exact ⟨hr, he, Or.inr rfl⟩
      · rw [phaseInv, applyCancelOne_terminal j now (Or.inr (Or.inr hst))]
        exact ⟨hr, he, Or.inr hst⟩
    | inFlight =>
      obtain ⟨hr, he, hst⟩ := ih
      show phaseInv ExecPhase.inFlight (applyCancelOne j now)
      rcases hst with hst | hst
      · rw [phaseInv, applyCancelOne_active j now (by simp [hst]) (by simp [hst]) (by simp [hst])]
        exact ⟨hr, he, Or.inr rfl⟩
      · rw [phaseInv, applyCancelOne_terminal j now (Or.inr (Or.inr hst))]
        exact ⟨hr, he, Or.inr hst⟩
    | doneOk =>
      obtain ⟨hr, he, hst⟩ := ih
      show phaseInv ExecPhase.doneOk (applyCancelOne j now)
      rw [phaseInv, applyCancelOne_terminal j now (Or.inl hst)]
      exact ⟨hr, he, hst⟩
    | failedInner =>
      obtain ⟨hr, he, hst⟩ := ih
      show phaseInv ExecPhase.failedInner (applyCancelOne j now)
      rw [phaseInv, applyCancelOne_terminal j now (Or.inr (Or.inl hst))]
      exact ⟨hr, he, hst⟩
    | failedOuter =>
      obtain ⟨hr, he, hst⟩ := ih
      show phaseInv ExecPhase.failedOuter (applyCancelOne j now)
      rw [phaseInv, applyCancelOne_terminal j now (Or.inr (Or.inl hst))]
      exact ⟨hr, he, hst⟩
  | @start j now hprev ih =>
    obtain ⟨hr, he, _⟩ := ih
    exact ⟨hr, he, Or.inl rfl⟩
  | @complete j r now hprev ih =>
    obtain ⟨hr, he, _⟩ := ih
    exact ⟨rfl, he, rfl⟩
  | @failInner j e now hprev ih =>
    obtain ⟨hr, he, _⟩ := ih
    exact ⟨hr, rfl, rfl⟩
  | @failOuterDirect j e now hprev ih =>
    obtain ⟨hr, he, _⟩ := ih
    exact ⟨hr, rfl, rfl⟩
  | @failOuterAfterInner j e now hprev ih =>
    obtain ⟨hr, he, _⟩ := ih
    exact ⟨hr, rfl, rfl⟩

/-- Claim C5: in every observable state of a job (states at `await`
boundaries of the single-threaded runtime), at most one of `result` and
`error` is populated, and neither is populated while the status is still
PENDING or RUNNING. -/
theorem result_error_mutual_exclusion (ph : ExecPhase) (j : JobMetadata)
    (h : JobReachable ph j) :
    ¬(j.result.isSome = true ∧ j.error.isSome = true) ∧
    ((j.status = JobStatus.pending ∨ j.status = JobStatus.running) →
      j.result = Option.none ∧ j.error = Option.none) := by
  have hs := jobReachable_strong h
  cases ph with
  | beforeStart =>
    obtain ⟨hr, he, _⟩ := hs
    refine ⟨fun c => ?_, fun _ => ⟨hr, he⟩⟩
    rw [hr] at c
    simp at c
  | inFlight =>
    obtain ⟨hr, he, _⟩ := hs
    refine ⟨fun c => ?_, fun _ => ⟨hr, he⟩⟩
    rw [hr] at c
    simp at c
  | doneOk =>
    obtain ⟨_, he, hst⟩ := hs
    refine ⟨fun c => ?_, fun hc => ?_⟩
    · rw [he] at c
      simp at c
    · rcases hc with hc | hc <;> rw [hst] at hc <;> exact absurd hc (by decide)
  | failedInner =>
    obtain ⟨hr, _, hst⟩ := hs
    refine ⟨fun c => ?_, fun hc => ?_⟩
    · rw [hr] at c
      simp at c
    · rcases hc with hc | hc <;> rw [hst] at hc <;> exact absurd hc (by decide)
  | failedOuter =>
    obtain ⟨hr, _, hst⟩ := hs
    refine ⟨fun c => ?_, fun hc => ?_⟩
    · rw [hr] at c
      simp at c
    · rcases hc with hc | hc <;> rw [hst] at hc <;> exact absurd hc (by decide)

/-- Witness for the C5 theorem on the concrete trace create, start,
complete. -/
theorem result_error_mutual_exclusion_witness :
    (fun jw : JobMetadata =>
      ¬(jw.result.isSome = true ∧ jw.error.isSome = true) ∧
      ((jw.status = JobStatus.pending ∨ jw.status = JobStatus.running) →
        jw.result = Option.none ∧ jw.error = Option.none))
      (applyComplete (applyStart (JobManager.createJob "text_to_image" [] [] 0 "jid" "cid") 1)
        ⟨[], "9", "9", "p", 0, []⟩ 2) :=
  result_error_mutual_exclusion _ _
    (JobReachable.complete _ _ (JobReachable.start _
      (JobReachable.init "text_to_image" [] [] 0 "jid" "cid")))

/-- Claim C8: an S3 relay failure for one image is non-fatal.  The output
list keeps one entry per raw image; the failed image keeps its direct URL
with the S3 URL simply omitted; every image is processed independently of
the others; and the executor success tail still records COMPLETED with the
processed list attached to the result. -/
theorem s3_relay_failure_nonfatal (enc : String → String) (cfg : ComfyUIHostConfig)
    (relay : ImageInfo → Option String) (images : List ImageInfo) (k : Nat)
    (hk : k < images.length) (hfail : relay (images.get ⟨k, hk⟩) = Option.none)
    (j : JobMetadata) (now : Nat) (hist : List NodeExecutionHistoryEntry)
    (d : WsEventData) (him : d.images = images) :
    (processOutputImages enc cfg true relay images).length = images.length ∧
    (processOutputImages enc cfg true relay images)[k]?
        = Option.some
            { filename := (images.get ⟨k, hk⟩).filename
              subfolder := (images.get ⟨k, hk⟩).subfolder
              type := if (images.get ⟨k, hk⟩).type == "" then "output"
                else (images.get ⟨k, hk⟩).type
              url := Option.some (viewUrl enc cfg (images.get ⟨k, hk⟩))
              s3Url := Option.none } ∧
    (∀ i : Nat, (processOutputImages enc cfg true relay images)[i]?
        = (images[i]?).map (processOneImage enc cfg true relay)) ∧
    (executeJobAsyncFinish enc cfg true relay j now hist (Except.ok d)).status
        = JobStatus.completed ∧
    ((executeJobAsyncFinish enc cfg true relay j now hist (Except.ok d)).result).map
        (fun r => r.images)
      = Option.some (processOutputImages enc cfg true relay images) := by
  have h1 : ∀ i : Nat, (processOutputImages enc cfg true relay images)[i]?
      = (images[i]?).map (processOneImage enc cfg true relay) := by
    intro i
    simp [processOutputImages, List.getElem?_map]
  refine ⟨?_, ?_, h1, ?_, ?_⟩
  · simp [processOutputImages]
  · rw [h1 k, List.getElem?_eq_getElem hk]
    simp [processOneImage, hfail]
    exact hfail
  · rfl
  · simp [executeJobAsyncFinish, JobManager.setJobResultOne, JobManager.updateJobStatusOne,
      JobManager.applyUpdates, him]

/-- Witness for the C8 theorem: two images, relay failing on the first. -/
theorem s3_relay_failure_nonfatal_witness :
    (executeJobAsyncFinish id ⟨"http", "h"⟩ true
        (fun im => if im.filename == "a.png" then Option.none else Option.some "s3b")
        (sampleJob "j1" 1 JobStatus.running) 5 []
        (Except.ok ⟨"9", "9", [⟨"a.png", "", "output"⟩, ⟨"b.png", "", "output"⟩], "p",
          Option.none⟩)).status
      = JobStatus.completed :=
  (s3_relay_failure_nonfatal id ⟨"http", "h"⟩
    (fun im => if im.filename == "a.png" then Option.none else Option.some "s3b")
    [⟨"a.png", "", "output"⟩, ⟨"b.png", "", "output"⟩] 0 (by decide) rfl
    (sampleJob "j1" 1 JobStatus.running) 5 []
    ⟨"9", "9", [⟨"a.png", "", "output"⟩, ⟨"b.png", "", "output"⟩], "p", Option.none⟩
    rfl).2.2.2.1

/-- Pagination consistency of `JobStorage.list`: for a truthy (non-zero)
limit, the paginated listing is the drop-offset-then-take-limit slice of
the unpaginated listing with the same filters. -/
theorem list_pagination_consistent (jobs : List JobMetadata) (sv : Option String)
    (st : Option JobStatus) (o l : Nat) (hl : l ≠ 0) :
    JobStorage.list jobs ⟨sv, st, Option.some l, Option.some o⟩
      = ((JobStorage.list jobs ⟨sv, st, Option.none, Option.none⟩).drop o).take l := by
  have hlb : (l == 0) = false := by simpa using hl
  by_cases ho : o = 0
  · subst ho
    simp [JobStorage.list, hlb, List.drop_zero]
  · have hob : (o == 0) = false := by simpa using ho
    simp [JobStorage.list, hlb, hob]

/-- The unpaginated `JobStorage.list` is the stable descending sort of the
service-then-status filter of the store (for a non-empty service
filter). -/
theorem list_no_pagination (jobs : List JobMetadata) (sv : Option String)
    (st : Option JobStatus) (hsv : sv ≠ Option.some "") :
    JobStorage.list jobs ⟨sv, st, Option.none, Option.none⟩
      = ((jobs.filter (svPred sv)).filter (stPred st)).insertionSort
          JobStorage.createdDesc := by
  rcases sv with _ | s
  · rcases st with _ | t <;> simp [JobStorage.list, svPred, stPred]
  · have hne : s ≠ "" := fun h => hsv (by rw [h])
    have hs : (s == "") = false := by simpa using hne
    rcases st with _ | t <;> simp [JobStorage.list, svPred, stPred, hs]

/-- On a list with pairwise-distinct creation times, the descending sort is
strictly descending. -/
theorem insertionSort_strict (l : List JobMetadata)
    (hd : l.Pairwise (fun a b => a.createdAt ≠ b.createdAt)) :
    (l.insertionSort JobStorage.createdDesc).Pairwise
      (fun a b => b.createdAt < a.createdAt) := by
  have hs : (l.insertionSort JobStorage.createdDesc).Pairwise JobStorage.createdDesc :=
    List.sorted_insertionSort JobStorage.createdDesc l
  have hd2 : (l.insertionSort JobStorage.createdDesc).Pairwise
      (fun a b => a.createdAt ≠ b.createdAt) :=
    ((List.perm_insertionSort JobStorage.createdDesc l).pairwise_iff
      (fun h => h.symm)).mpr hd
  exact (hs.and hd2).imp (fun hab => Nat.lt_of_le_of_ne hab.1 (Ne.symm hab.2))

/-- Permuting the input of the descending sort does not change its output
when creation times are pairwise distinct: the sort is a total order on
such lists, so sorted permutations agree. -/
theorem insertionSort_createdDesc_eq_of_perm (l1 l2 : List JobMetadata)
    (hp : l1.Perm l2)
    (hd : l1.Pairwise (fun a b => a.createdAt ≠ b.createdAt)) :
    l1.insertionSort JobStorage.createdDesc = l2.insertionSort JobStorage.createdDesc := by
  haveI : IsAntisymm JobMetadata (fun a b : JobMetadata => b.createdAt < a.createdAt) :=
    ⟨fun a b h1 h2 => absurd (Nat.lt_trans h1 h2) (Nat.lt_irrefl _)⟩
  have hd2 : l2.Pairwise (fun a b => a.createdAt ≠ b.createdAt) :=
    (hp.pairwise_iff (fun h => h.symm)).mp hd
  exact List.eq_of_perm_of_sorted
    (r := fun a b : JobMetadata => b.createdAt < a.createdAt)
    (((List.perm_insertionSort _ l1).trans hp).trans
      (List.perm_insertionSort _ l2).symm)
    (insertionSort_strict l1 hd)
    (insertionSort_strict l2 hd2)

/-- Claim C6: `listJobs` filters by service and status first, then sorts
the survivors by `createdAt` descending, then drops `offset` entries, then
truncates to `limit` entries, in that fixed order; with no filters the
unpaginated listing is a permutation of all stored jobs sorted descending;
and the paginated slice is independent of the insertion order of the store
(for pairwise-distinct creation times). -/
theorem listJobs_contract (jobs jobs2 : List JobMetadata) (sv : Option String)
    (st : Option JobStatus) (o l : Nat)
    (hsv : sv ≠ Option.some "") (hl : l ≠ 0)
    (hperm : jobs.Perm jobs2)
    (hdist : jobs.Pairwise (fun a b => a.createdAt ≠ b.createdAt)) :
    JobStorage.list jobs ⟨sv, st, Option.some l, Option.some o⟩
        = ((JobStorage.list jobs ⟨sv, st, Option.none, Option.none⟩).drop o).take l ∧
    (JobStorage.list jobs ⟨sv, st, Option.none, Option.none⟩).Perm
        ((jobs.filter (svPred sv)).filter (stPred st)) ∧
    (JobStorage.list jobs ⟨sv, st, Option.none, Option.none⟩).Pairwise
        JobStorage.createdDesc ∧
    (JobStorage.list jobs
        ⟨Option.none, Option.none, Option.none, Option.none⟩).Perm jobs ∧
    JobStorage.list jobs ⟨sv, st, Option.some l, Option.some o⟩
        = JobStorage.list jobs2 ⟨sv, st, Option.some l, Option.some o⟩ := by
  refine ⟨list_pagination_consistent jobs sv st o l hl, ?_, ?_, ?_, ?_⟩
  · rw [list_no_pagination jobs sv st hsv]
    exact List.perm_insertionSort _ _
  · rw [list_no_pagination jobs sv st hsv]
    exact List.sorted_insertionSort _ _
  · rw [list_no_pagination jobs Option.none Option.none (by simp)]
    have hid : (jobs.filter (svPred Option.none)).filter (stPred Option.none) = jobs := by
      simp [svPred, stPred]
    rw [hid]
    exact List.perm_insertionSort _ _
  · rw [list_pagination_consistent jobs sv st o l hl,
      list_pagination_consistent jobs2 sv st o l hl,
      list_no_pagination jobs sv st hsv, list_no_pagination jobs2 sv st hsv]
    have hfp : ((jobs.filter (svPred sv)).filter (stPred st)).Perm
        ((jobs2.filter (svPred sv)).filter (stPred st)) :=
      (hperm.filter (svPred sv)).filter (stPred st)
    have hfd : ((jobs.filter (svPred sv)).filter (stPred st)).Pairwise
        (fun a b => a.createdAt ≠ b.createdAt) :=
      List.Pairwise.sublist (List.filter_sublist _)
        (List.Pairwise.sublist (List.filter_sublist _) hdist)
    rw [insertionSort_createdDesc_eq_of_perm _ _ hfp hfd]

/-- Witness for the C6 theorem: three jobs with distinct creation times
against a swapped insertion order, no filters, offset 1, limit 1. -/
theorem listJobs_contract_witness :
    JobStorage.list
        [sampleJob "a" 1 JobStatus.pending, sampleJob "b" 3 JobStatus.pending,
         sampleJob "c" 2 JobStatus.pending]
        ⟨Option.none, Option.none, Option.some 1, Option.some 1⟩
      = JobStorage.list
        [sampleJob "b" 3 JobStatus.pending, sampleJob "a" 1 JobStatus.pending,
         sampleJob "c" 2 JobStatus.pending]
        ⟨Option.none, Option.none, Option.some 1, Option.some 1⟩ :=
  (listJobs_contract
    [sampleJob "a" 1 JobStatus.pending, sampleJob "b" 3 JobStatus.pending,
     sampleJob "c" 2 JobStatus.pending]
    [sampleJob "b" 3 JobStatus.pending, sampleJob "a" 1 JobStatus.pending,
     sampleJob "c" 2 JobStatus.pending]
    Option.none Option.none 1 1 (by simp) (by simp)
    (List.Perm.swap _ _ _)
    (by simp [sampleJob, List.pairwise_cons])).2.2.2.2
